import Mathlib

/-!
Shallow embedding of the `SimpleVector` container library
(`src/simple-vector/simple_vector.h` and `src/simple-vector/array_ptr.h`).

The container state is modelled by `SimpleVector.SV`: the `size_` and
`capacity_` fields become `Nat`, and the heap buffer owned by the
`ArrayPtr` member becomes a `List α` whose length is the allocation
length (`capacity_`); the empty list models the null buffer.  Element
moves are modelled as copies in this plain model (a separate model in
namespace `MoveSem` tracks moved-from states where a claim is about
them).  Loops over the buffer (`std::copy`, `std::fill`,
`std::move_backward`, `std::move`, the resize default-fill loop) are
translated element by element as recursions over an explicit count,
writing with `List.set` exactly where the C++ writes through the raw
pointer.
-/

set_option autoImplicit false

namespace SimpleVec

/-- `class ReserveProxyObj`: opaque carrier of a desired capacity
(`capacity_` field, observed by `GetCapacity`). -/
structure ReserveProxyObj where
  capacity : Nat
deriving DecidableEq, Repr

/-- The free factory `ReserveProxyObj Reserve(size_t)` at namespace scope
(simple_vector.h line 21). -/
def ReserveFactory (capacity_to_reserve : Nat) : ReserveProxyObj :=
  ⟨capacity_to_reserve⟩

/-- State of a `SimpleVector<Type>`: `size_`, `capacity_`, and the buffer
owned by `items_` (an `ArrayPtr<Type>` holding `capacity_` elements; `[]`
models the null pointer of a default-constructed / moved-from `ArrayPtr`). -/
structure SV (α : Type) where
  size : Nat
  capacity : Nat
  items : List α
deriving DecidableEq, Repr

variable {α : Type}

/-- `SimpleVector() noexcept = default`: `size_ = 0`, `capacity_ = 0`,
`items_` null. -/
def defaultSV : SV α := ⟨0, 0, []⟩

/-- `std::copy` / the element-move loop of `Resize`: for `n` steps, write
`dst[i] := src[i]`, `dst[i+1] := src[i+1]`, ….  Out-of-bounds reads (never
reached under the container invariant) read the default value, as
`List.set` past the end is a no-op. -/
def copyIntoN [Inhabited α] (src : List α) (dst : List α) (i : Nat) : Nat → List α
  | 0 => dst
  | n + 1 => copyIntoN src (dst.set i (src.getD i default)) (i + 1) n

/-- The loop `for i in [i, i+n): items_[i] = Type{}` of `Resize`'s
in-capacity branch. -/
def fillDefaultN [Inhabited α] (l : List α) (i : Nat) : Nat → List α
  | 0 => l
  | n + 1 => fillDefaultN (l.set i default) (i + 1) n

/-- `std::move_backward(first, last, d_last)` restricted to the buffer:
`n` moves, rightmost first, the `t`-th step writing
`l[lastDst-1-t] := l[lastSrc-1-t]`. -/
def moveBackwardN [Inhabited α] (l : List α) (lastSrc lastDst : Nat) : Nat → List α
  | 0 => l
  | n + 1 => moveBackwardN (l.set (lastDst - 1) (l.getD (lastSrc - 1) default)) (lastSrc - 1) (lastDst - 1) n

/-- `std::move(first, last, d_first)` restricted to the buffer: `n` moves,
leftmost first, the `t`-th step writing `l[dst+t] := l[src+t]`. -/
def moveForwardN [Inhabited α] (l : List α) (src dst : Nat) : Nat → List α
  | 0 => l
  | n + 1 => moveForwardN (l.set dst (l.getD src default)) (src + 1) (dst + 1) n

namespace SV

/-- `explicit SimpleVector(size_t size)`: `size_ = capacity_ = n`, buffer
allocated with `n` slots and `std::generate`-filled with `Type{}`. -/
def mkSized [Inhabited α] (n : Nat) : SV α := ⟨n, n, List.replicate n default⟩

/-- `SimpleVector(size_t size, const Type& value)`: `size_ = capacity_ = n`,
buffer `std::fill`ed with `value`. -/
def mkFilled (n : Nat) (value : α) : SV α := ⟨n, n, List.replicate n value⟩

/-- `SimpleVector(std::initializer_list<Type> init)`: `size_ = capacity_ =
init.size()`, buffer of that length, `std::copy` of the list into it. -/
def mkFromList [Inhabited α] (init : List α) : SV α :=
  ⟨init.length, init.length, copyIntoN init (List.replicate init.length default) 0 init.length⟩

/-- `SimpleVector(const SimpleVector& other)`: `size_ = capacity_ =
other.GetSize()`, fresh buffer of `other.GetSize()` slots, `std::copy` of
`[other.begin(), other.end())`. -/
def mkCopy [Inhabited α] (other : SV α) : SV α :=
  ⟨other.size, other.size, copyIntoN other.items (List.replicate other.size default) 0 other.size⟩

/-- `SimpleVector(SimpleVector&& other)`: the new object takes
`other`'s size, capacity and buffer (`std::exchange` / `ArrayPtr` move);
`other` is left with `size_ = 0`, `capacity_ = 0`, null buffer.  Returns
(new object, source after). -/
def moveCtor (other : SV α) : SV α × SV α :=
  (⟨other.size, other.capacity, other.items⟩, defaultSV)

/-- `void Clear() noexcept`: `size_ = 0`. -/
def Clear (s : SV α) : SV α := ⟨0, s.capacity, s.items⟩

/-- Member `void Reserve(size_t new_capacity)`: when `new_capacity >
capacity_`, allocate `ArrayPtr<Type> new_items(new_capacity)` (that many
default-constructed slots), `std::copy(begin(), end(), new_items.Get())`,
swap buffers, `capacity_ = new_capacity`; otherwise no-op. -/
def Reserve [Inhabited α] (s : SV α) (new_capacity : Nat) : SV α :=
  if s.capacity < new_capacity then
    ⟨s.size, new_capacity, copyIntoN s.items (List.replicate new_capacity default) 0 s.size⟩
  else s

/-- `explicit SimpleVector(ReserveProxyObj obj){ Reserve(obj.GetCapacity()); }`.
The constructor body is a complete-class context, so unqualified lookup of
`Reserve` finds the member `SimpleVector::Reserve(size_t)` (class scope
wins over the namespace-scope factory, and finding a class member
suppresses ADL): the member runs on the default-constructed state and
sets the capacity. -/
def mkReserved [Inhabited α] (obj : ReserveProxyObj) : SV α :=
  Reserve defaultSV obj.capacity

/-- `void Resize(size_t new_size)`: no-op when equal; shrink only `size_`
when smaller; default-fill `[size_, new_size)` when within capacity; else
set `capacity_ = max(capacity_ * 2, new_size)`, build a temporary
`SimpleVector(capacity_)` (all slots default), move the live prefix into
it, swap, and set `size_ = new_size`. -/
def Resize [Inhabited α] (s : SV α) (new_size : Nat) : SV α :=
  if new_size = s.size then s
  else if new_size < s.size then ⟨new_size, s.capacity, s.items⟩
  else if new_size ≤ s.capacity then
    ⟨new_size, s.capacity, fillDefaultN s.items s.size (new_size - s.size)⟩
  else
    let newCap := max (s.capacity * 2) new_size
    ⟨new_size, newCap, copyIntoN s.items (List.replicate newCap default) 0 s.size⟩

/-- `void PushBack(const Type& item)`: if `size_ < capacity_` just
`++size_`, else `Resize(size_ + 1)`; then `items_[size_ - 1] = item`.
The `Type&&` overload has the same state effect (the assignment into the
slot moves instead of copies). -/
def PushBack [Inhabited α] (s : SV α) (item : α) : SV α :=
  let s' := if s.size < s.capacity then ⟨s.size + 1, s.capacity, s.items⟩ else Resize s (s.size + 1)
  ⟨s'.size, s'.capacity, s'.items.set (s'.size - 1) item⟩

/-- `Iterator Insert(ConstIterator pos, const Type& value)` (the `Type&&`
overload has the same state effect).  `k` is the offset of `pos` from
`begin()` at call time, so `pos == cend()` is `k = size_`.  In that case
the code delegates to `PushBack` and returns `end() - 1`.  Otherwise it
grows by one exactly as `PushBack` does, and only then computes
`index = std::distance(cbegin(), pos)`.  When the growth went through
`Resize(size_ + 1)` the buffer was reallocated (the temporary's buffer is
allocated while the old one is still live, so the addresses differ, and
the old buffer is freed when the temporary dies at the end of `Resize`):
`pos` then dangles into the freed allocation and the pointer subtraction
is undefined behaviour, modelled as `none`.  In the in-capacity branch the
buffer is unchanged, `index = k`, and the code runs
`std::move_backward(&items_[index], end() - 1, end())` followed by
`*(--it) = value`, returning the iterator at `index`.  The result pairs
the new state with the returned iterator's offset from `begin()`. -/
def Insert [Inhabited α] (s : SV α) (k : Nat) (value : α) : Option (SV α × Nat) :=
  if k = s.size then
    let s' := PushBack s value
    some (s', s'.size - 1)
  else if s.size < s.capacity then
    let sz := s.size + 1
    let index := k
    let shifted := moveBackwardN s.items (sz - 1) sz (sz - 1 - index)
    some (⟨sz, s.capacity, shifted.set index value⟩, index)
  else
    none

/-- `void PopBack() noexcept`: `assert(!IsEmpty()); --size_;`. -/
def PopBack (s : SV α) : SV α := ⟨s.size - 1, s.capacity, s.items⟩

/-- `Iterator Erase(ConstIterator pos)` with `k = pos - cbegin()`:
`std::move(&items_[index + 1], end(), &items_[index]); --size_;`
returning the iterator at `index`. -/
def Erase [Inhabited α] (s : SV α) (k : Nat) : SV α × Nat :=
  (⟨s.size - 1, s.capacity, moveForwardN s.items (k + 1) k (s.size - (k + 1))⟩, k)

/-- `void swap(SimpleVector& other) noexcept`: exchange buffers, sizes and
capacities.  Returns the pair (this after, other after). -/
def swapOp (s other : SV α) : SV α × SV α := (other, s)

/-- `operator==` (simple_vector.h line 294): sizes equal and
`std::equal(lhs.begin(), lhs.end(), rhs.begin())`, i.e. the first
`lhs.GetSize()` buffer slots of each side agree. -/
def veq [DecidableEq α] (lhs rhs : SV α) : Bool :=
  decide (lhs.size = rhs.size) && decide (lhs.items.take lhs.size = rhs.items.take rhs.size)

/-- `operator!=`: `!(lhs == rhs)`. -/
def vne [DecidableEq α] (lhs rhs : SV α) : Bool := ! veq lhs rhs

/-- `operator=(const SimpleVector& rhs)`: guarded by `*this != rhs`
(value inequality); when unequal, copy-and-swap with `SimpleVector
tmp(rhs)`.  Returns the new state of `*this`. -/
def copyAssign [Inhabited α] [DecidableEq α] (this rhs : SV α) : SV α :=
  if vne this rhs then mkCopy rhs else this

/-- `operator=(SimpleVector&& rhs)`: guarded by `*this != rhs` (value
inequality); when unequal, `SimpleVector tmp(std::move(rhs))` leaves `rhs`
default and `swap(tmp)` gives `*this` the stolen contents.  Returns
(this after, rhs after).  (For self-assignment the two arguments denote
one object; the guard is then false and the object is untouched, so the
pair model is faithful there.) -/
def moveAssign [DecidableEq α] (this rhs : SV α) : SV α × SV α :=
  if vne this rhs then (⟨rhs.size, rhs.capacity, rhs.items⟩, defaultSV) else (this, rhs)

/-- The debug assertion of `operator[]` (both overloads):
`assert(index <= size_)`. -/
def opIndexAssertOk (s : SV α) (index : Nat) : Bool := decide (index ≤ s.size)

/-- The live element at offset `i` of the buffer (what `items_[i]` reads,
for an in-bounds `i`). -/
def elemAt [Inhabited α] (s : SV α) (i : Nat) : α := s.items.getD i default

/-- `Type& At(size_t index)` (and the `const` overload): throw
`std::out_of_range` when `index >= size_`, else return `items_[index]`.
`At` only reads; the state is untouched. -/
def At [Inhabited α] (s : SV α) (index : Nat) : Except String α :=
  if s.size ≤ index then Except.error "out_of_range\n" else Except.ok (elemAt s index)

end SV

namespace SV

/-- The representation invariant of a `SimpleVector`: the live length never
exceeds the allocation length, and the buffer owned by `items_` holds
exactly `capacity_` slots. -/
abbrev Wf (s : SV α) : Prop := s.size ≤ s.capacity ∧ s.items.length = s.capacity

/-- `begin()` as an address: the buffer base `items_.Get()`. -/
def beginAddr (base : Nat) (_s : SV α) : Nat := base

/-- `end()` as an address: `items_.Get() + size_`. -/
def endAddr (base : Nat) (s : SV α) : Nat := base + s.size

end SV

theorem copyIntoN_length [Inhabited α] (src : List α) (n : Nat) :
    ∀ (dst : List α) (i : Nat), (copyIntoN src dst i n).length = dst.length := by
  induction n with
  | zero => intro dst i; rfl
  | succ m ih => intro dst i; rw [copyIntoN, ih, List.length_set]

theorem fillDefaultN_length [Inhabited α] (n : Nat) :
    ∀ (l : List α) (i : Nat), (fillDefaultN l i n).length = l.length := by
  induction n with
  | zero => intro l i; rfl
  | succ m ih => intro l i; rw [fillDefaultN, ih, List.length_set]

theorem moveBackwardN_length [Inhabited α] (n : Nat) :
    ∀ (l : List α) (a b : Nat), (moveBackwardN l a b n).length = l.length := by
  induction n with
  | zero => intro l a b; rfl
  | succ m ih => intro l a b; rw [moveBackwardN, ih, List.length_set]

theorem moveForwardN_length [Inhabited α] (n : Nat) :
    ∀ (l : List α) (a b : Nat), (moveForwardN l a b n).length = l.length := by
  induction n with
  | zero => intro l a b; rfl
  | succ m ih => intro l a b; rw [moveForwardN, ih, List.length_set]

namespace SV

theorem wf_defaultSV : (defaultSV : SV α).Wf := ⟨Nat.le_refl 0, rfl⟩

theorem wf_mkSized [Inhabited α] (n : Nat) : (mkSized n : SV α).Wf :=
  ⟨Nat.le_refl n, List.length_replicate n default⟩

theorem wf_mkFilled (n : Nat) (v : α) : (mkFilled n v).Wf :=
  ⟨Nat.le_refl n, List.length_replicate n v⟩

theorem wf_mkFromList [Inhabited α] (l : List α) : (mkFromList l : SV α).Wf := by
  refine ⟨Nat.le_refl _, ?_⟩
  rw [mkFromList]
  rw [copyIntoN_length, List.length_replicate]

theorem wf_mkCopy [Inhabited α] {s : SV α} : (mkCopy s).Wf := by
  refine ⟨Nat.le_refl _, ?_⟩
  rw [mkCopy]
  rw [copyIntoN_length, List.length_replicate]

theorem wf_moveCtor_fst {s : SV α} (h : s.Wf) : (moveCtor s).1.Wf := h

theorem wf_moveCtor_snd {s : SV α} : (moveCtor s).2.Wf := wf_defaultSV

theorem wf_Clear {s : SV α} (h : s.Wf) : (Clear s).Wf := ⟨Nat.zero_le _, h.2⟩

theorem wf_Reserve [Inhabited α] {s : SV α} (h : s.Wf) (n : Nat) : (Reserve s n).Wf := by
  rw [Reserve]
  split_ifs with h1
  · exact ⟨Nat.le_of_lt (Nat.lt_of_le_of_lt h.1 h1), by rw [copyIntoN_length, List.length_replicate]⟩
  · exact h

theorem wf_Resize [Inhabited α] {s : SV α} (h : s.Wf) (n : Nat) : (Resize s n).Wf := by
  rw [Resize]
  split_ifs with h1 h2 h3
  · exact h
  · exact ⟨Nat.le_trans (Nat.le_of_lt h2) h.1, h.2⟩
  · exact ⟨h3, by rw [fillDefaultN_length]; exact h.2⟩
  · exact ⟨Nat.le_max_right _ _, by rw [copyIntoN_length, List.length_replicate]⟩

theorem wf_PushBack [Inhabited α] {s : SV α} (h : s.Wf) (v : α) : (PushBack s v).Wf := by
  rw [PushBack]
  split_ifs with h1
  · exact ⟨h1, by rw [List.length_set]; exact h.2⟩
  · have h2 := wf_Resize h (s.size + 1)
    exact ⟨h2.1, by rw [List.length_set]; exact h2.2⟩

theorem wf_Insert [Inhabited α] {s t : SV α} {k i : Nat} {v : α}
    (h : s.Wf) (he : Insert s k v = some (t, i)) : t.Wf := by
  rw [Insert] at he
  split_ifs at he with h1 h2
  · cases he
    exact wf_PushBack h v
  · cases he
    exact ⟨h2, by rw [List.length_set, moveBackwardN_length]; exact h.2⟩

theorem wf_PopBack {s : SV α} (h : s.Wf) : (PopBack s).Wf :=
  ⟨Nat.le_trans (Nat.sub_le _ _) h.1, h.2⟩

theorem wf_Erase [Inhabited α] {s : SV α} (h : s.Wf) (k : Nat) : (Erase s k).1.Wf :=
  ⟨Nat.le_trans (Nat.sub_le _ _) h.1, by rw [Erase]; rw [moveForwardN_length]; exact h.2⟩

theorem wf_copyAssign [Inhabited α] [DecidableEq α] {s t : SV α} (hs : s.Wf) : (copyAssign s t).Wf := by
  rw [copyAssign]
  split_ifs with h1
  · exact wf_mkCopy
  · exact hs

theorem wf_moveAssign_fst [DecidableEq α] {s t : SV α} (hs : s.Wf) (ht : t.Wf) :
    (moveAssign s t).1.Wf := by
  rw [moveAssign]
  split_ifs with h1
  · exact ht
  · exact hs

theorem wf_moveAssign_snd [DecidableEq α] {s t : SV α} (ht : t.Wf) : (moveAssign s t).2.Wf := by
  rw [moveAssign]
  split_ifs with h1
  · exact wf_defaultSV
  · exact ht

end SV

/-- The states a `SimpleVector` can reach by any finite sequence of its
constructors and mutators (each constructor of `Reach` is one public
operation of the class; preconditions guarded by debug assertions appear
as hypotheses, and `Insert` contributes a state only on executions that do
not run into the undefined pointer subtraction). -/
inductive Reach [Inhabited α] [DecidableEq α] : SV α → Prop where
  | dflt : Reach defaultSV
  | sized (n : Nat) : Reach (SV.mkSized n)
  | filled (n : Nat) (v : α) : Reach (SV.mkFilled n v)
  | ofList (l : List α) : Reach (SV.mkFromList l)
  | reserved (obj : ReserveProxyObj) : Reach (SV.mkReserved obj)
  | copy {s : SV α} : Reach s → Reach (SV.mkCopy s)
  | moveNew {s : SV α} : Reach s → Reach (SV.moveCtor s).1
  | moveSrc {s : SV α} : Reach s → Reach (SV.moveCtor s).2
  | clear {s : SV α} : Reach s → Reach (SV.Clear s)
  | reserve {s : SV α} (n : Nat) : Reach s → Reach (SV.Reserve s n)
  | resize {s : SV α} (n : Nat) : Reach s → Reach (SV.Resize s n)
  | push {s : SV α} (v : α) : Reach s → Reach (SV.PushBack s v)
  | insertOk {s t : SV α} {k i : Nat} {v : α} :
      Reach s → SV.Insert s k v = some (t, i) → Reach t
  | pop {s : SV α} : Reach s → s.size ≠ 0 → Reach (SV.PopBack s)
  | erase {s : SV α} (k : Nat) : Reach s → k < s.size → Reach (SV.Erase s k).1
  | copyAsgn {s t : SV α} : Reach s → Reach t → Reach (SV.copyAssign s t)
  | moveAsgnDst {s t : SV α} : Reach s → Reach t → Reach (SV.moveAssign s t).1
  | moveAsgnSrc {s t : SV α} : Reach s → Reach t → Reach (SV.moveAssign s t).2
  | swapFst {s t : SV α} : Reach s → Reach t → Reach (SV.swapOp s t).1
  | swapSnd {s t : SV α} : Reach s → Reach t → Reach (SV.swapOp s t).2

theorem reach_wf [Inhabited α] [DecidableEq α] {s : SV α} (h : Reach s) : s.Wf := by
  induction h with
  | dflt => exact SV.wf_defaultSV
  | sized n => exact SV.wf_mkSized n
  | filled n v => exact SV.wf_mkFilled n v
  | ofList l => exact SV.wf_mkFromList l
  | reserved obj => exact SV.wf_Reserve SV.wf_defaultSV obj.capacity
  | copy _ _ => exact SV.wf_mkCopy
  | moveNew _ ih => exact SV.wf_moveCtor_fst ih
  | moveSrc _ _ => exact SV.wf_moveCtor_snd
  | clear _ ih => exact SV.wf_Clear ih
  | reserve n _ ih => exact SV.wf_Reserve ih n
  | resize n _ ih => exact SV.wf_Resize ih n
  | push v _ ih => exact SV.wf_PushBack ih v
  | insertOk _ he ih => exact SV.wf_Insert ih he
  | pop _ _ ih => exact SV.wf_PopBack ih
  | erase k _ _ ih => exact SV.wf_Erase ih k
  | copyAsgn _ _ ihs _ => exact SV.wf_copyAssign ihs
  | moveAsgnDst _ _ ihs iht => exact SV.wf_moveAssign_fst ihs iht
  | moveAsgnSrc _ _ _ iht => exact SV.wf_moveAssign_snd iht
  | swapFst _ _ _ iht => exact iht
  | swapSnd _ _ ihs _ => exact ihs

theorem fillDefaultN_getD_of_lt [Inhabited α] (n : Nat) :
    ∀ (l : List α) (i j : Nat), j < i →
      (fillDefaultN l i n).getD j default = l.getD j default := by
  induction n with
  | zero => intro l i j _; rfl
  | succ m ih =>
      intro l i j hj
      rw [fillDefaultN]
      rw [ih _ _ _ (Nat.lt_succ_of_lt hj)]
      rw [List.getD_eq_getElem?_getD, List.getD_eq_getElem?_getD,
        List.getElem?_set_ne (by omega : i ≠ j)]

theorem fillDefaultN_getD_of_mem [Inhabited α] (n : Nat) :
    ∀ (l : List α) (i j : Nat), i ≤ j → j < i + n → j < l.length →
      (fillDefaultN l i n).getD j default = default := by
  induction n with
  | zero => intro l i j h1 h2 _; omega
  | succ m ih =>
      intro l i j h1 h2 h3
      rw [fillDefaultN]
      rcases Nat.eq_or_lt_of_le h1 with he | hlt
      · subst he
        rw [fillDefaultN_getD_of_lt m _ _ _ (Nat.lt_succ_self i)]
        rw [List.getD_eq_getElem?_getD, List.getElem?_set_eq_of_lt default h3]
        rfl
      · exact ih _ _ _ hlt (by omega) (by rw [List.length_set]; exact h3)

theorem resize_grow_capacity [Inhabited α] {s : SV α} {n : Nat}
    (h1 : s.size ≤ s.capacity) (h2 : s.capacity < n) :
    (SV.Resize s n).capacity = max (s.capacity * 2) n := by
  rw [SV.Resize, if_neg (by omega : ¬ n = s.size), if_neg (by omega : ¬ n < s.size),
    if_neg (by omega : ¬ n ≤ s.capacity)]

theorem pushBack_grow_capacity [Inhabited α] {s : SV α} (he : s.size = s.capacity) (v : α) :
    (SV.PushBack s v).capacity = max (s.capacity * 2) (s.capacity + 1) := by
  rw [SV.PushBack]
  rw [if_neg (by omega : ¬ s.size < s.capacity)]
  show (SV.Resize s (s.size + 1)).capacity = _
  rw [resize_grow_capacity (by omega) (by omega), he]

namespace MoveSem

/-- An element of type `Type` together with its move state: `live a` is an
object holding value `a`, `dead` is a moved-from object. -/
inductive MVal (α : Type) where
  | live : α → MVal α
  | dead : MVal α
deriving DecidableEq, Repr

instance [Inhabited α] : Inhabited (MVal α) := ⟨MVal.live default⟩

/-- Copy-assignment `dst = src` of elements: the destination receives the
source's value and the source is only read.  Returns
(value written, source after the assignment). -/
def copyFrom (src : MVal α) : MVal α × MVal α := (src, src)

/-- Move-assignment `dst = std::move(src)`: the destination receives the
value and the source is left in the moved-from state. -/
def moveFrom (src : MVal α) : MVal α × MVal α := (src, MVal.dead)

/-- `void PushBack(const Type& item)` over move-tracked elements: the final
`items_[size_ - 1] = item` is a copy assignment.  Returns the new state and
the argument after the call. -/
def PushBackConst [Inhabited α] (s : SV (MVal α)) (item : MVal α) :
    SV (MVal α) × MVal α :=
  let s' := if s.size < s.capacity then (⟨s.size + 1, s.capacity, s.items⟩ : SV (MVal α))
            else SV.Resize s (s.size + 1)
  let w := copyFrom item
  (⟨s'.size, s'.capacity, s'.items.set (s'.size - 1) w.1⟩, w.2)

/-- `void PushBack(Type&& item)`: `items_[size_ - 1] = std::move(item)`
leaves the argument moved-from. -/
def PushBackMove [Inhabited α] (s : SV (MVal α)) (item : MVal α) :
    SV (MVal α) × MVal α :=
  let s' := if s.size < s.capacity then (⟨s.size + 1, s.capacity, s.items⟩ : SV (MVal α))
            else SV.Resize s (s.size + 1)
  let w := moveFrom item
  (⟨s'.size, s'.capacity, s'.items.set (s'.size - 1) w.1⟩, w.2)

/-- `Iterator Insert(ConstIterator pos, const Type& value)` over
move-tracked elements, tracking what happens to the argument.  In the
`pos == cend()` branch the source calls `PushBack(std::move(value))`;
`value` has type `const Type&`, so `std::move(value)` has type
`const Type&&`, which cannot bind to the `Type&&` overload and overload
resolution selects `PushBack(const Type&)`: the argument is copied from,
not moved from.  In the in-buffer branch the final `*(--it) = value` also
copies.  On the stuck path (dangling-pointer `std::distance`, as in
`SV.Insert`) the argument was never used destructively.  Buffer-internal
shifting is as in `SV.Insert`; only the argument's move state is tracked. -/
def InsertConst [Inhabited α] (s : SV (MVal α)) (k : Nat) (value : MVal α) :
    Option (SV (MVal α) × Nat) × MVal α :=
  if k = s.size then
    let r := PushBackConst s value
    (some (r.1, r.1.size - 1), r.2)
  else if s.size < s.capacity then
    let sz := s.size + 1
    let w := copyFrom value
    (some (⟨sz, s.capacity, (moveBackwardN s.items (sz - 1) sz (sz - 1 - k)).set k w.1⟩, k), w.2)
  else
    (none, value)

theorem pushBackMove_consumes [Inhabited α] (s : SV (MVal α)) (item : MVal α) :
    (PushBackMove s item).2 = MVal.dead := rfl

theorem pushBackConst_state [Inhabited α] (s : SV (MVal α)) (item : MVal α) :
    (PushBackConst s item).1 = SV.PushBack s item := rfl

end MoveSem

/-- C1: for every capacity value `n`, constructing a `SimpleVector` from
the reservation marker produced by the free factory with `n`
(`SimpleVector(Reserve(n))`) yields a vector with size `0` and capacity
`n` — the constructor body resolves `Reserve` to the member, which sets
`capacity_` (no-op when `n = 0`, and then `capacity_ = 0 = n` anyway). -/
theorem reserveCtor_size_capacity {α : Type} [Inhabited α] (n : Nat) :
    (SV.mkReserved (ReserveFactory n) : SV α).size = 0
    ∧ (SV.mkReserved (ReserveFactory n) : SV α).capacity = n := by
  rw [SV.mkReserved, SV.Reserve]
  by_cases h : (defaultSV : SV α).capacity < (ReserveFactory n).capacity
  · rw [if_pos h]
    exact ⟨rfl, rfl⟩
  · rw [if_neg h]
    have h0 : ¬ 0 < n := h
    refine ⟨rfl, ?_⟩
    show (0 : Nat) = n
    omega

/-- C2 (evaluation at the failing input): inserting `3` at `begin() + 2`
of the full vector `[1,2,4,5]` (`size_ == capacity_ == 4`) makes `Insert`
grow through `Resize`, which reallocates and frees the old buffer, before
computing `index = std::distance(cbegin(), pos)`; `pos` then dangles and
the pointer subtraction is undefined behaviour, so the modelled execution
is stuck (`none`) instead of producing `[1,2,3,4,5]`.  With spare capacity
(after `Reserve 8`) the very same call produces the result the claim
describes, with the returned iterator at offset `2`. -/
theorem insert_full_middle_stuck :
    SV.Insert (SV.mkFromList [1,2,4,5] : SV Nat) 2 3 = none
    ∧ SV.Insert (SV.Reserve (SV.mkFromList [1,2,4,5] : SV Nat) 8) 2 3
      = some (⟨5, 8, [1,2,3,4,5,0,0,0]⟩, 2) := by
  exact ⟨rfl, rfl⟩

/-- C3 is false as stated: move-assignment is guarded by `*this != rhs`
(value inequality), so move-assigning from a source whose value equals the
destination's is a no-op and the source keeps its length `1`, capacity `1`
and buffer — it is not left in the default-constructed state. -/
theorem moveAssign_equal_source_not_default :
    (SV.moveAssign (SV.mkFilled 1 (5 : Nat)) (SV.mkFilled 1 5)).2 = SV.mkFilled 1 5
    ∧ SV.mkFilled 1 (5 : Nat) ≠ defaultSV := by
  exact ⟨rfl, by decide⟩

/-- C3 (amended): move construction always leaves the source in the
default-constructed state; move assignment leaves the source default
exactly when the `*this != rhs` guard passes (the operands compare unequal
by value), and otherwise — including every self-assignment — is a no-op
that leaves both objects untouched. -/
theorem move_source_state {α : Type} [DecidableEq α] (s dst rhs : SV α) :
    (SV.moveCtor s).2 = defaultSV
    ∧ (SV.vne dst rhs = true → (SV.moveAssign dst rhs).2 = defaultSV)
    ∧ (SV.vne dst rhs = false → SV.moveAssign dst rhs = (dst, rhs)) := by
  refine ⟨rfl, ?_, ?_⟩
  · intro h
    rw [SV.moveAssign, if_pos h]
  · intro h
    rw [SV.moveAssign, if_neg (by simp [h])]

theorem move_source_state_witness :
    (SV.moveCtor (SV.mkFilled 1 (5 : Nat))).2 = defaultSV
    ∧ (SV.moveAssign (SV.mkFilled 1 (5 : Nat)) (SV.mkFilled 1 6)).2 = defaultSV
    ∧ SV.moveAssign (SV.mkFilled 1 (5 : Nat)) (SV.mkFilled 1 5)
      = (SV.mkFilled 1 5, SV.mkFilled 1 5) :=
  ⟨(move_source_state (SV.mkFilled 1 5) (SV.mkFilled 1 5) (SV.mkFilled 1 5)).1,
   (move_source_state (SV.mkFilled 1 (5 : Nat)) (SV.mkFilled 1 5) (SV.mkFilled 1 6)).2.1
     (by decide),
   (move_source_state (SV.mkFilled 1 (5 : Nat)) (SV.mkFilled 1 5) (SV.mkFilled 1 5)).2.2
     (by decide)⟩

/-- C4: every state reachable by a finite sequence of constructor and
mutator operations satisfies `0 ≤ length ≤ capacity`, and
`end() - begin() == length` (addresses `items_.Get() = base` and
`items_.Get() + size_`). -/
theorem reachable_invariant {α : Type} [Inhabited α] [DecidableEq α]
    (base : Nat) {s : SV α} (h : Reach s) :
    0 ≤ s.size ∧ s.size ≤ s.capacity
    ∧ SV.endAddr base s - SV.beginAddr base s = s.size :=
  ⟨Nat.zero_le _, (reach_wf h).1, by
    rw [SV.endAddr, SV.beginAddr]
    omega⟩

theorem reachable_invariant_witness :
    0 ≤ (SV.PushBack (defaultSV : SV Nat) 1).size
    ∧ (SV.PushBack (defaultSV : SV Nat) 1).size ≤ (SV.PushBack (defaultSV : SV Nat) 1).capacity
    ∧ SV.endAddr 0 (SV.PushBack (defaultSV : SV Nat) 1)
        - SV.beginAddr 0 (SV.PushBack (defaultSV : SV Nat) 1)
      = (SV.PushBack (defaultSV : SV Nat) 1).size :=
  reachable_invariant 0 (Reach.push 1 Reach.dflt)

/-- C5: whenever growth is needed — `Resize` above capacity, or `PushBack`
on a full vector (required capacity `capacity_ + 1`) — the new capacity is
exactly `max(capacity * 2, required)`; a capacity-0 vector grows to
capacity `1`; and five consecutive `PushBack`s on a default-constructed
vector leave capacities `1, 2, 4, 4, 8`. -/
theorem growth_policy {α : Type} [Inhabited α] (s : SV α) (n : Nat) (v : α) :
    (s.Wf → s.capacity < n → (SV.Resize s n).capacity = max (s.capacity * 2) n)
    ∧ (s.Wf → s.size = s.capacity →
        (SV.PushBack s v).capacity = max (s.capacity * 2) (s.capacity + 1))
    ∧ (s.Wf → s.capacity = 0 → (SV.PushBack s v).capacity = 1)
    ∧ ((SV.PushBack (defaultSV : SV Nat) 10).capacity = 1
      ∧ (SV.PushBack (SV.PushBack (defaultSV : SV Nat) 10) 20).capacity = 2
      ∧ (SV.PushBack (SV.PushBack (SV.PushBack (defaultSV : SV Nat) 10) 20) 30).capacity = 4
      ∧ (SV.PushBack (SV.PushBack (SV.PushBack (SV.PushBack (defaultSV : SV Nat) 10) 20) 30)
          40).capacity = 4
      ∧ (SV.PushBack (SV.PushBack (SV.PushBack (SV.PushBack (SV.PushBack
          (defaultSV : SV Nat) 10) 20) 30) 40) 50).capacity = 8) := by
  refine ⟨?_, ?_, ?_, by decide⟩
  · intro hwf hn
    exact resize_grow_capacity hwf.1 hn
  · intro _ he
    exact pushBack_grow_capacity he v
  · intro hwf hc
    have he : s.size = s.capacity := by omega
    rw [pushBack_grow_capacity he v, hc]
    decide

theorem growth_policy_witness :
    (SV.Resize (SV.mkFromList [1,2] : SV Nat) 5).capacity
      = max ((SV.mkFromList [1,2] : SV Nat).capacity * 2) 5
    ∧ (SV.PushBack (SV.mkFromList [1,2] : SV Nat) 9).capacity
      = max ((SV.mkFromList [1,2] : SV Nat).capacity * 2)
          ((SV.mkFromList [1,2] : SV Nat).capacity + 1)
    ∧ (SV.PushBack (defaultSV : SV Nat) 9).capacity = 1 :=
  ⟨(growth_policy (SV.mkFromList [1,2] : SV Nat) 5 9).1 (by decide) (by decide),
   (growth_policy (SV.mkFromList [1,2] : SV Nat) 5 9).2.1 (by decide) (by decide),
   (growth_policy (defaultSV : SV Nat) 5 9).2.2.1 (by decide) (by decide)⟩

/-- C6 is false as stated: the debug assertion of `operator[]` is
`assert(index <= size_)`, so the index `i == size` (here `3` on a vector
of size `3`) does not violate it — the assertion accepts it. -/
theorem opIndexAssert_accepts_size :
    SV.opIndexAssertOk (SV.mkSized 3 : SV Nat) 3 = true := by decide

/-- C6 (amended): the debug assertion of unchecked access accepts exactly
the indices `i ≤ size`: it is violated if and only if `i > size`, so of
the out-of-range indices `i ≥ size` all are caught except `i == size`,
which passes the assertion even though the slot is outside the live
range. -/
theorem opIndexAssert_iff {α : Type} (s : SV α) (i : Nat) :
    SV.opIndexAssertOk s i = true ↔ i ≤ s.size := by
  simp [SV.opIndexAssertOk]

/-- C7: `Insert(pos, value)` with `value` passed by const reference never
moves from its argument: the `pos == cend()` case calls
`PushBack(std::move(value))`, but `std::move` on a `const Type&` yields
`const Type&&`, which selects the copying `PushBack(const Type&)`
overload; the in-buffer case copies via `*(--it) = value`.  The argument
is returned unchanged on every path, and the state computed agrees with
the plain model `SV.Insert`. -/
theorem insertConst_arg_unchanged {α : Type} [Inhabited α]
    (s : SV (MoveSem.MVal α)) (k : Nat) (value : MoveSem.MVal α) :
    (MoveSem.InsertConst s k value).2 = value
    ∧ (MoveSem.InsertConst s k value).1 = SV.Insert s k value := by
  constructor
  · rw [MoveSem.InsertConst]
    split_ifs <;> rfl
  · rw [MoveSem.InsertConst, SV.Insert]
    split_ifs <;> rfl

/-- C8: `At(i)` throws `out_of_range` exactly when `i ≥ size_` and
otherwise returns the element at index `i` (the function only reads the
state, which the embedding makes a pure function); concretely, on the
length-3 vector `[10,20,30]`, `At 3` throws and `At 0` returns `10`. -/
theorem at_spec {α : Type} [Inhabited α] (s : SV α) (i : Nat) :
    ((∃ e, SV.At s i = Except.error e) ↔ s.size ≤ i)
    ∧ (i < s.size → SV.At s i = Except.ok (SV.elemAt s i))
    ∧ SV.At (SV.mkFromList [10,20,30] : SV Nat) 3 = Except.error "out_of_range\n"
    ∧ SV.At (SV.mkFromList [10,20,30] : SV Nat) 0 = Except.ok 10 := by
  refine ⟨⟨?_, ?_⟩, ?_, rfl, rfl⟩
  · rintro ⟨e, he⟩
    by_cases h : s.size ≤ i
    · exact h
    · rw [SV.At, if_neg h] at he
      cases he
  · intro h
    exact ⟨_, by rw [SV.At, if_pos h]⟩
  · intro h
    rw [SV.At, if_neg (by omega)]

theorem at_spec_witness :
    SV.At (SV.mkFromList [10,20,30] : SV Nat) 0
      = Except.ok (SV.elemAt (SV.mkFromList [10,20,30] : SV Nat) 0) :=
  (at_spec (SV.mkFromList [10,20,30] : SV Nat) 0).2.1 (by decide)

/-- C9: for `k ≤ length`, `Resize k` followed by `Resize old_length`
restores the length, preserves the first `k` elements, and leaves the
elements at indices `[k, old_length)` equal to the default value of the
element type (the second resize default-fills them in place). -/
theorem resize_roundtrip {α : Type} [Inhabited α] (s : SV α) (k : Nat)
    (hwf : s.Wf) (hk : k ≤ s.size) :
    (SV.Resize (SV.Resize s k) s.size).size = s.size
    ∧ (∀ i, i < k → (SV.Resize (SV.Resize s k) s.size).elemAt i = s.elemAt i)
    ∧ (∀ i, k ≤ i → i < s.size →
        (SV.Resize (SV.Resize s k) s.size).elemAt i = default) := by
  rcases Nat.eq_or_lt_of_le hk with he | hlt
  · subst he
    have h1 : SV.Resize s s.size = s := by
      rw [SV.Resize, if_pos rfl]
    rw [h1, h1]
    exact ⟨rfl, fun i _ => rfl, fun i ha hb => absurd hb (by omega)⟩
  · have h1 : SV.Resize s k = ⟨k, s.capacity, s.items⟩ := by
      rw [SV.Resize, if_neg (by omega), if_pos hlt]
    rw [h1]
    have h2 : SV.Resize (⟨k, s.capacity, s.items⟩ : SV α) s.size
        = ⟨s.size, s.capacity, fillDefaultN s.items k (s.size - k)⟩ := by
      rw [SV.Resize]
      rw [if_neg (by simpa using by omega : ¬ s.size = (⟨k, s.capacity, s.items⟩ : SV α).size)]
      rw [if_neg (by simpa using by omega : ¬ s.size < (⟨k, s.capacity, s.items⟩ : SV α).size)]
      rw [if_pos (show s.size ≤ (⟨k, s.capacity, s.items⟩ : SV α).capacity from hwf.1)]
    rw [h2]
    refine ⟨rfl, ?_, ?_⟩
    · intro i hi
      exact fillDefaultN_getD_of_lt _ _ _ _ hi
    · intro i hik his
      exact fillDefaultN_getD_of_mem _ _ _ _ hik (by omega)
        (by rw [hwf.2]; exact Nat.lt_of_lt_of_le his hwf.1)

theorem resize_roundtrip_witness :
    (SV.Resize (SV.Resize (SV.mkFromList [7,7,7] : SV Nat) 2) 3).size = 3
    ∧ (SV.Resize (SV.Resize (SV.mkFromList [7,7,7] : SV Nat) 2) 3).elemAt 0
      = (SV.mkFromList [7,7,7] : SV Nat).elemAt 0
    ∧ (SV.Resize (SV.Resize (SV.mkFromList [7,7,7] : SV Nat) 2) 3).elemAt 2 = default := by
  have h := resize_roundtrip (SV.mkFromList [7,7,7] : SV Nat) 2 (by decide) (by decide)
  exact ⟨h.1, h.2.1 0 (by decide), h.2.2 2 (by decide) (by decide)⟩

/-- C10: self-assignment is a no-op for both the copy and the move
assignment operator — the `*this != rhs` guard compares the object with
itself, which is reflexively equal (`operator==` compares size and the
live elements), so neither operator changes length, capacity or
elements. -/
theorem self_assign_noop {α : Type} [Inhabited α] [DecidableEq α] (s : SV α) :
    SV.copyAssign s s = s ∧ SV.moveAssign s s = (s, s) := by
  have hv : SV.vne s s = false := by simp [SV.vne, SV.veq]
  constructor
  · rw [SV.copyAssign]
    simp [hv]
  · rw [SV.moveAssign]
    simp [hv]

end SimpleVec
